import Mathlib

/-!
# Verification of the file-upload / job-queue service

Shallow embedding of the core logic of the `file-upload` repository:
the line parsers and data validation (`src/lib/lineParser.js`), the
streaming worker (`src/lib/worker.js`), the job queue model
(`src/lib/jobModel.js`), the HTTP route handlers
(`src/routes/process.js`, `src/routes/upload.js`), against the
repository's specification.

Conventions of the embedding:
* JavaScript timestamps (`Date`) are `Nat` epoch milliseconds.
* MongoDB document collections are Lean lists in insertion order;
  BSON ObjectIds are modelled as `Nat` document identifiers assigned
  in insertion order (ObjectIds are monotone in creation time).
* Fallible external calls (MongoDB `insertMany`) are driven by an
  explicit success oracle indexed by call count.
* `JSON.parse` (an ECMAScript builtin, not repository code) is a
  parameter of the embedding: a function `String → Except String JSValue`.
-/

namespace FileUpload

/-! ## Configuration defaults, from `src/src/lib/config.js` -/

/-- `config.jobBatchSize` default (`JOB_BATCH_SIZE`, 1000). -/
def defaultJobBatchSize : Nat := 1000

/-- `config.jobLockTimeoutMs` default (`JOB_LOCK_TIMEOUT_MS`, 5 minutes). -/
def jobLockTimeoutMs : Nat := 300000

/-- `config.jobStaleThresholdMs` default (`JOB_STALE_THRESHOLD_MS`, 10 minutes). -/
def jobStaleThresholdMs : Nat := 600000

/-- `config.maxJobAttempts` default (`MAX_JOB_ATTEMPTS`, 3). -/
def maxJobAttempts : Nat := 3

/-- `config.maxFileSize` default (`MAX_FILE_SIZE`, 5 GiB in bytes). -/
def maxFileSize : Nat := 5368709120

/-- `config.allowedFileTypes` default. -/
def allowedFileTypes : List String := ["text/plain", "application/json", "text/csv"]

/-! ## JavaScript values produced by parsing a line -/

/-- A JavaScript value as produced by the line parsers: `null`, booleans,
numbers (integer-valued in all concrete instances used here), strings,
arrays and plain objects (own enumerable string keys, in insertion order). -/
inductive JSValue where
  | vNull
  | vBool (b : Bool)
  | vNum (n : Int)
  | vStr (s : String)
  | vArr (elems : List JSValue)
  | vObj (fields : List (String × JSValue))

/-- Result object of one line parser call, from `src/lib/lineParser.js`:
either `{lineNumber, data, success: true}` or
`{lineNumber, error, rawLine, success: false}`.  The parsers return
`null` for blank lines, modelled by wrapping in `Option`. -/
inductive ParseOutcome where
  | ok (lineNumber : Nat) (data : JSValue)
  | err (lineNumber : Nat) (message : String) (rawLine : String)

/-- Whether the outcome has `success = true`. -/
def ParseOutcome.success : ParseOutcome → Bool
  | .ok _ _ => true
  | .err _ _ _ => false

/-! ## JavaScript string builtins

The parsers use `String.prototype.trim`, `split(',')`, `startsWith` and
`includes`.  They are modelled structurally over the string's character
list, following the JavaScript semantics for these inputs. -/

/-- JavaScript `trim()`: strip leading and trailing whitespace. -/
def jsTrim (s : String) : String :=
  ⟨(((s.data.dropWhile Char.isWhitespace).reverse.dropWhile Char.isWhitespace).reverse)⟩

/-- JavaScript `split(sep)` for a one-character separator, on a character
list: splitting the empty string gives one empty field. -/
def splitCharsOn (sep : Char) : List Char → List (List Char)
  | [] => [[]]
  | c :: rest =>
      if c = sep then [] :: splitCharsOn sep rest
      else
        match splitCharsOn sep rest with
        | [] => [[c]]
        | g :: gs => (c :: g) :: gs

/-- JavaScript `s.split(sep)` for a one-character separator. -/
def jsSplitOn (sep : Char) (s : String) : List String :=
  (splitCharsOn sep s.data).map (fun cs => ⟨cs⟩)

/-- JavaScript `s.startsWith(c)` for a one-character argument. -/
def jsStartsWithChar (s : String) (c : Char) : Bool :=
  match s.data with
  | [] => false
  | c' :: _ => c' = c

/-- JavaScript `s.includes(c)` for a one-character argument. -/
def jsIncludesChar (s : String) (c : Char) : Bool :=
  s.data.contains c

/-! ## Line parsers, from `src/lib/lineParser.js` -/

/-- `parseJsonLine(line, lineNumber)`: trims, skips blank lines, then
`JSON.parse`s the trimmed text; on a parse exception returns a failure
record carrying the exception message and the raw line truncated to 200
characters.  `jsonParse` abstracts the `JSON.parse` builtin. -/
def parseJsonLine (jsonParse : String → Except String JSValue)
    (line : String) (lineNumber : Nat) : Option ParseOutcome :=
  let trimmed := jsTrim line
  if trimmed = "" then none
  else
    match jsonParse trimmed with
    | .ok v => some (.ok lineNumber v)
    | .error m => some (.err lineNumber m (line.take 200))

/-- `parseCsvLine(line, lineNumber, headers)`: trims, skips blank lines,
splits on `,` trimming each cell.  With headers, zips headers with cells
into an object (`obj[header] = values[idx] || null`: a missing or empty
cell becomes `null`); without headers, returns the cell array. -/
def parseCsvLine (line : String) (lineNumber : Nat)
    (headers : Option (List String)) : Option ParseOutcome :=
  let trimmed := jsTrim line
  if trimmed = "" then none
  else
    let values := (jsSplitOn ',' trimmed).map jsTrim
    match headers with
    | some hs =>
        let fields := hs.enum.map (fun p =>
          (p.2,
            match values.get? p.1 with
            | some v => if v = "" then JSValue.vNull else JSValue.vStr v
            | none => JSValue.vNull))
        some (.ok lineNumber (.vObj fields))
    | none => some (.ok lineNumber (.vArr (values.map JSValue.vStr)))

/-- `parseTextLine(line, lineNumber)`: skips blank lines, otherwise wraps
the original (un-trimmed) line as `{text: line}`. -/
def parseTextLine (line : String) (lineNumber : Nat) : Option ParseOutcome :=
  if jsTrim line = "" then none
  else some (.ok lineNumber (.vObj [("text", .vStr line)]))

/-- `parseLineAuto(line, lineNumber)`: skips blank lines; tries JSON if the
trimmed line starts with `{` or `[` (keeping the result only on success);
else tries CSV if the trimmed line contains a comma (result kept only on
success); else falls back to text. -/
def parseLineAuto (jsonParse : String → Except String JSValue)
    (line : String) (lineNumber : Nat) : Option ParseOutcome :=
  let trimmed := jsTrim line
  if trimmed = "" then none
  else
    let jsonTry : Option ParseOutcome :=
      if jsStartsWithChar trimmed '\x7b' || jsStartsWithChar trimmed '[' then
        match parseJsonLine jsonParse line lineNumber with
        | some (.ok n v) => some (.ok n v)
        | _ => none
      else none
    match jsonTry with
    | some r => some r
    | none =>
        let csvTry : Option ParseOutcome :=
          if jsIncludesChar trimmed ',' then
            match parseCsvLine line lineNumber none with
            | some (.ok n v) => some (.ok n v)
            | _ => none
          else none
        match csvTry with
        | some r => some r
        | none => parseTextLine line lineNumber

/-- `validateParsedData(data)`: rejects `data` unless it is a truthy value
of JavaScript type `object` (arrays and plain objects; `null` is falsy)
with `Object.keys(data).length > 0`. -/
def validateParsedData : JSValue → Bool
  | .vArr elems => !elems.isEmpty
  | .vObj fields => !fields.isEmpty
  | _ => false

/-- Decimal digits of a nonnegative integer numeral, structurally over
the character list: `some` exactly when the string is a non-empty run of
ASCII digits. -/
def parseNatLit (s : String) : Option Nat :=
  if s.data ≠ [] ∧ s.data.all Char.isDigit then
    some (s.data.foldl (fun acc c => acc * 10 + (c.toNat - '0'.toNat)) 0)
  else none

/-- Modelled from the spec: the `JSON.parse` ECMAScript builtin, which is
not part of this repository.  Defined on the literal forms appearing in
concrete instances — `null`, booleans, nonnegative integer numerals, the
empty array and the empty object — following standard JSON semantics;
everything else is a parse error. -/
def jsonParseLit (s : String) : Except String JSValue :=
  if s = "null" then .ok .vNull
  else if s = "true" then .ok (.vBool true)
  else if s = "false" then .ok (.vBool false)
  else if s = "[]" then .ok (.vArr [])
  else if s = "\x7b\x7d" then .ok (.vObj [])
  else
    match parseNatLit s with
    | some n => .ok (.vNum n)
    | none => .error "Unexpected token in JSON at position 0"

/-! ## The streaming worker, from `src/src/lib/worker.js`

`processJob` pipes the file's byte stream through a line splitter into a
transform that parses, validates and batches lines, bulk-inserting each
full batch.  The embedding folds the transform over the list of input
lines and then runs the stream's `flush`.  Externally visible calls
(`addJobError`, `insertMany`, `updateJobProgress`, `completeJob`,
`updateFileStatus`) are recorded in an effect trace in program order. -/

/-- One externally visible call made while processing a job. -/
inductive WorkerEffect where
  | addError (message : String)
  | bulkInsert (size : Nat)
  | progressUpdate (linesProcessed recordsInserted errors : Nat)
  | completeEff (linesProcessed recordsInserted errorCount : Nat) (ok : Bool)
  | fileStatusEff (status : String)
deriving DecidableEq, Repr

/-- Whether an effect is the `completeJob` call. -/
def isCompleteEff : WorkerEffect → Bool
  | .completeEff _ _ _ _ => true
  | _ => false

/-- Whether an effect is the `updateFileStatus` call. -/
def isFileStatusEff : WorkerEffect → Bool
  | .fileStatusEff _ => true
  | _ => false

/-- The local mutable state of `processJob`'s stream transform:
`lineNumber`, `linesProcessed`, `recordsInserted`, `errorCount`, the
pending `batch` (line number and parsed data of each record), the number
of `insertMany` calls made so far, and the trace of effects. -/
structure WorkerState where
  lineNumber : Nat
  linesProcessed : Nat
  recordsInserted : Nat
  errorCount : Nat
  batch : List (Nat × JSValue)
  insertCalls : Nat
  effects : List WorkerEffect

/-- Initial transform state (all counters zero, empty batch). -/
def initWorkerState : WorkerState :=
  { lineNumber := 0, linesProcessed := 0, recordsInserted := 0,
    errorCount := 0, batch := [], insertCalls := 0, effects := [] }

/-- Sizes of the `insertMany` calls in the trace, in order. -/
def insertSizes (s : WorkerState) : List Nat :=
  s.effects.filterMap (fun e =>
    match e with
    | .bulkInsert k => some k
    | _ => none)

/-- Messages passed to `addJobError` in the trace, in order. -/
def errorMessages (s : WorkerState) : List String :=
  s.effects.filterMap (fun e =>
    match e with
    | .addError m => some m
    | _ => none)

/-- One `insertMany(batch)` call followed by the code's bookkeeping: on
success `recordsInserted += batch.length` and an `updateJobProgress`
call; on failure (the `catch` branch) `errorCount += batch.length`.
Either way the batch is cleared.  `oracle` decides, per call index,
whether the bulk insert succeeds. -/
def doInsert (oracle : Nat → Bool) (s : WorkerState) : WorkerState :=
  if oracle s.insertCalls then
    { s with recordsInserted := s.recordsInserted + s.batch.length,
             insertCalls := s.insertCalls + 1,
             effects := s.effects ++
               [.bulkInsert s.batch.length,
                .progressUpdate s.linesProcessed (s.recordsInserted + s.batch.length) s.errorCount],
             batch := [] }
  else
    { s with errorCount := s.errorCount + s.batch.length,
             insertCalls := s.insertCalls + 1,
             effects := s.effects ++ [.bulkInsert s.batch.length],
             batch := [] }

/-- Bookkeeping for a parsed-and-validated line: `linesProcessed++` and
`batch.push(record)` (the record's line number and data). -/
def pushRecord (s : WorkerState) (m : Nat) (d : JSValue) : WorkerState :=
  { s with lineNumber := s.lineNumber + 1,
           linesProcessed := s.linesProcessed + 1,
           batch := s.batch ++ [(m, d)] }

/-- The stream transform applied to one input line, from
`processStream.transform`: count the line; skip `null` parses (blank
lines); on parse failure count an error and `addJobError`
`"Line <n>: <err>"`; on validation failure count an error and
`addJobError` `"Line <n>: Invalid data format"`; otherwise count the line
processed, append the record to the batch (`pushRecord`), and bulk-insert
when the batch has reached `batchSize`. -/
def stepLine (batchSize : Nat) (parseLineFn : String → Nat → Option ParseOutcome)
    (oracle : Nat → Bool) (s : WorkerState) (line : String) : WorkerState :=
  match parseLineFn line (s.lineNumber + 1) with
  | none => { s with lineNumber := s.lineNumber + 1 }
  | some (.err m msg _) =>
      { s with lineNumber := s.lineNumber + 1,
               errorCount := s.errorCount + 1,
               effects := s.effects ++ [.addError ("Line " ++ toString m ++ ": " ++ msg)] }
  | some (.ok m d) =>
      if validateParsedData d then
        if batchSize ≤ (pushRecord s m d).batch.length then
          doInsert oracle (pushRecord s m d)
        else pushRecord s m d
      else
        { s with lineNumber := s.lineNumber + 1,
                 errorCount := s.errorCount + 1,
                 effects := s.effects ++
                   [.addError ("Line " ++ toString m ++ ": Invalid data format")] }

/-- Folding the transform over all input lines. -/
def runLines (batchSize : Nat) (parseLineFn : String → Nat → Option ParseOutcome)
    (oracle : Nat → Bool) (lines : List String) : WorkerState :=
  lines.foldl (stepLine batchSize parseLineFn oracle) initWorkerState

/-- `processStream.flush`: bulk-insert any non-empty remaining batch. -/
def flushRemaining (oracle : Nat → Bool) (s : WorkerState) : WorkerState :=
  if s.batch.length > 0 then doInsert oracle s else s

/-- The whole stream: fold the transform over the input lines, then run
`processStream.flush`. -/
def processStream (batchSize : Nat) (parseLineFn : String → Nat → Option ParseOutcome)
    (oracle : Nat → Bool) (lines : List String) : WorkerState :=
  flushRemaining oracle (runLines batchSize parseLineFn oracle lines)

/-- The effect trace of `processJob`'s success path: the stream effects,
then `completeJob(jobId, {linesProcessed, recordsInserted, errorCount,
success: true})`, then `updateFileStatus(fileId, 'processed')` — in the
order the code performs them. -/
def processJobEffects (batchSize : Nat) (parseLineFn : String → Nat → Option ParseOutcome)
    (oracle : Nat → Bool) (lines : List String) : List WorkerEffect :=
  (processStream batchSize parseLineFn oracle lines).effects ++
    [.completeEff (processStream batchSize parseLineFn oracle lines).linesProcessed
       (processStream batchSize parseLineFn oracle lines).recordsInserted
       (processStream batchSize parseLineFn oracle lines).errorCount true,
     .fileStatusEff "processed"]

/-- An effect that is neither the `completeJob` call nor the
`updateFileStatus` call. -/
def cleanEff (e : WorkerEffect) : Prop :=
  isCompleteEff e = false ∧ isFileStatusEff e = false

/-- Counter invariant of the stream transform:
`recordsInserted + batch.length ≤ linesProcessed` and
`recordsInserted + errorCount + batch.length ≤ lineNumber`. -/
def workerInv (s : WorkerState) : Prop :=
  s.recordsInserted + s.batch.length ≤ s.linesProcessed ∧
  s.recordsInserted + s.errorCount + s.batch.length ≤ s.lineNumber

/-- Number of input lines whose trimmed content is empty. -/
def countEmptyLines (lines : List String) : Nat :=
  (lines.filter (fun l => jsTrim l = "")).length

/-- Batching invariant of the stream transform: the pending batch holds
the valid lines processed since the last bulk insert
(`batch.length = linesProcessed % batchSize`), and the bulk inserts so
far are exactly one full batch per `batchSize` valid lines
(`insertSizes = replicate (linesProcessed / batchSize) batchSize`). -/
def batchInv (batchSize : Nat) (s : WorkerState) : Prop :=
  s.batch.length = s.linesProcessed % batchSize ∧
  insertSizes s = List.replicate (s.linesProcessed / batchSize) batchSize

/-- A parser that never returns a `success = false` outcome. -/
def neverFails (parseLineFn : String → Nat → Option ParseOutcome) : Prop :=
  ∀ line n, parseLineFn line n = none ∨ ∃ d, parseLineFn line n = some (.ok n d)

/-! ## The job queue, from `src/src/lib/jobModel.js`

The `jobs` collection is a list of job documents in insertion order.
Document identifiers (`_id` ObjectIds) are `Nat`s assigned in insertion
order, so list order and identifier order agree. -/

/-- The `state` string discriminant of a job document. -/
inductive JobState where
  | queued
  | inProgress
  | completed
  | failed
deriving DecidableEq, Repr

/-- The `progress` sub-document `{linesProcessed, recordsInserted, errors}`. -/
structure Progress where
  linesProcessed : Nat
  recordsInserted : Nat
  errors : Nat
deriving DecidableEq, Repr

/-- One entry of a job's bounded error list: `{message, timestamp}`. -/
structure JobError where
  message : String
  timestamp : Nat
deriving DecidableEq, Repr

/-- The terminal `result` value of a job: `completeJob` stores the
worker's summary `{linesProcessed, recordsInserted, errorCount, success}`;
`failJob` stores `{error, stack}`; `resetStaleJobs` stores `{error}`. -/
inductive JobResult where
  | summary (linesProcessed recordsInserted errorCount : Nat) (ok : Bool)
  | failure (error : String) (stack : String)
  | errorOnly (error : String)
deriving DecidableEq, Repr

/-- The error message carried by a result, if any. -/
def resultMessage : Option JobResult → Option String
  | some (.failure e _) => some e
  | some (.errorOnly e) => some e
  | _ => none

/-- A job document, from `createJob`'s shape. -/
structure Job where
  id : Nat
  fileId : Nat
  state : JobState
  attempts : Nat
  queuedAt : Nat
  startedAt : Option Nat
  finishedAt : Option Nat
  workerId : Option String
  lockUntil : Option Nat
  progress : Progress
  errors : List JobError
  result : Option JobResult
deriving DecidableEq, Repr

/-- The document `createJob(fileId)` inserts: state `queued`, zero
attempts, `queuedAt = now`, null worker/lock/timestamps, zero progress. -/
def newJob (id fileId now : Nat) : Job :=
  { id := id, fileId := fileId, state := .queued, attempts := 0,
    queuedAt := now, startedAt := none, finishedAt := none,
    workerId := none, lockUntil := none,
    progress := { linesProcessed := 0, recordsInserted := 0, errors := 0 },
    errors := [], result := none }

/-- `createJob(fileId)`: insert a fresh queued job document. -/
def createJob (id fileId now : Nat) (jobs : List Job) : List Job :=
  jobs ++ [newJob id fileId now]

/-- The `$set`/`$inc` update applied by `claimJob`'s `findOneAndUpdate`:
state `in_progress`, worker assigned, `startedAt = now`,
`lockUntil = now + config.jobLockTimeoutMs`, attempts incremented. -/
def applyClaim (w : String) (now : Nat) (j : Job) : Job :=
  { j with state := .inProgress, workerId := some w,
           startedAt := some now, lockUntil := some (now + jobLockTimeoutMs),
           attempts := j.attempts + 1 }

/-- The minimal `queuedAt` among `queued` jobs, if any: the sort key of
`claimJob`'s `findOneAndUpdate(..., sort: (queuedAt, 1))`. -/
def minQueuedAt : List Job → Option Nat
  | [] => none
  | j :: rest =>
      if j.state = .queued then
        match minQueuedAt rest with
        | none => some j.queuedAt
        | some m => some (min j.queuedAt m)
      else minQueuedAt rest

/-- Number of `queued` documents whose `queuedAt` equals `m`: the
candidates `findOneAndUpdate`'s sort leaves tied in first place. -/
def countMin (m : Nat) (jobs : List Job) : Nat :=
  (jobs.filter (fun j => decide (j.state = JobState.queued ∧ j.queuedAt = m))).length

/-- Update the `k`-th (in document order) `queued` job whose `queuedAt`
is `m`, returning the post-image.  `k` ranges over the tied candidates:
MongoDB documents no order among equal sort keys, so which candidate the
server returns first is abstracted by `k`. -/
def claimAuxN (w : String) (now m : Nat) : Nat → List Job → Option Job × List Job
  | _, [] => (none, [])
  | k, j :: rest =>
      if j.state = .queued ∧ j.queuedAt = m then
        match k with
        | 0 => (some (applyClaim w now j), applyClaim w now j :: rest)
        | k' + 1 =>
            ((claimAuxN w now m k' rest).1, j :: (claimAuxN w now m k' rest).2)
      else
        ((claimAuxN w now m k rest).1, j :: (claimAuxN w now m k rest).2)

/-- `claimJob(workerId)`: atomic `findOneAndUpdate` on filter
`{state: 'queued'}` with sort `{queuedAt: 1}`, applying `applyClaim` and
returning the post-image (`returnDocument: 'after'`); `none` when no
queued job exists.  The single-key sort gives no tie-break guarantee, so
the choice among the `queuedAt`-minimal queued documents is an explicit
parameter `pick` of the embedding (taken modulo the number of tied
candidates: every candidate is selected by some `pick`). -/
def claimJob (w : String) (now pick : Nat) (jobs : List Job) : Option Job × List Job :=
  match minQueuedAt jobs with
  | none => (none, jobs)
  | some m => claimAuxN w now m (pick % countMin m jobs) jobs

/-- What a successful claim guarantees, for every resolution `pick` of
the tie: the collection splits as `pre ++ q :: post` around the selected
job `q`, which was `queued` with the minimal `queuedAt` among queued
jobs; the call returns `q`'s post-image (in progress, worker and lease
assigned, attempts incremented) and updates only `q`'s document; and a
subsequent claim on the updated collection — under any tie resolution —
can never return the same document. -/
def claimSpec (w : String) (now pick : Nat) (jobs : List Job) : Prop :=
  ∃ pre q post,
    jobs = pre ++ q :: post ∧
    q.state = JobState.queued ∧
    claimJob w now pick jobs = (some (applyClaim w now q), pre ++ applyClaim w now q :: post) ∧
    (applyClaim w now q).state = JobState.inProgress ∧
    (applyClaim w now q).workerId = some w ∧
    (applyClaim w now q).startedAt = some now ∧
    (applyClaim w now q).lockUntil = some (now + jobLockTimeoutMs) ∧
    (applyClaim w now q).attempts = q.attempts + 1 ∧
    (applyClaim w now q).id = q.id ∧
    (∀ k ∈ jobs, k.state = JobState.queued → q.queuedAt ≤ k.queuedAt) ∧
    (∀ w2 now2 pick2 j2 l2,
      claimJob w2 now2 pick2 (pre ++ applyClaim w now q :: post) = (some j2, l2) →
      j2.id ≠ q.id)

/-- `updateJobProgress(jobId, progress)`: store the progress snapshot and
extend the lock to `now + config.jobLockTimeoutMs`. -/
def updateJobProgress (jobId : Nat) (p : Progress) (now : Nat) (jobs : List Job) : List Job :=
  jobs.map (fun j =>
    if j.id = jobId then
      { j with progress := p, lockUntil := some (now + jobLockTimeoutMs) }
    else j)

/-- `completeJob(jobId, result)`: unconditionally set state `completed`,
`finishedAt = now` and the result on the matching document. -/
def completeJob (jobId : Nat) (r : JobResult) (now : Nat) (jobs : List Job) : List Job :=
  jobs.map (fun j =>
    if j.id = jobId then
      { j with state := .completed, finishedAt := some now, result := some r }
    else j)

/-- `failJob(jobId, error)`: unconditionally set state `failed`,
`finishedAt = now` and `result = {error: message, stack}`. -/
def failJob (jobId : Nat) (emsg estack : String) (now : Nat) (jobs : List Job) : List Job :=
  jobs.map (fun j =>
    if j.id = jobId then
      { j with state := .failed, finishedAt := some now,
               result := some (.failure emsg estack) }
    else j)

/-- `$push` with `$slice: -100`: keep only the last 100 entries. -/
def capLast100 (es : List JobError) : List JobError :=
  es.drop (es.length - 100)

/-- `addJobError(jobId, error)`: push `{message, timestamp}` onto the
capped error list and increment `progress.errors`. -/
def addJobError (jobId : Nat) (msg : String) (now : Nat) (jobs : List Job) : List Job :=
  jobs.map (fun j =>
    if j.id = jobId then
      { j with errors := capLast100 (j.errors ++ [{ message := msg, timestamp := now }]),
               progress := { j.progress with errors := j.progress.errors + 1 } }
    else j)

/-- `{lockUntil: {$lt: new Date()}}`: a lock timestamp strictly in the
past; a `null` lock does not match a `$lt`-on-Date query. -/
def lockExpired (now : Nat) (j : Job) : Bool :=
  match j.lockUntil with
  | some l => decide (l < now)
  | none => false

/-- `{startedAt: {$lt: staleThreshold}}` with
`staleThreshold = now - config.jobStaleThresholdMs`. -/
def startedStale (now : Nat) (j : Job) : Bool :=
  match j.startedAt with
  | some s => decide (s < now - jobStaleThresholdMs)
  | none => false

/-- `resetStaleJobs()`: two `updateMany` passes.  Pass 1 resets every
`in_progress` job that is stale (`lockExpired ∨ startedStale`) with
`attempts < config.maxJobAttempts` to `queued`, nulling worker and lock.
Pass 2, over the updated collection, sets every still-`in_progress` stale
job with `attempts ≥ config.maxJobAttempts` to `failed` with
`result = {error: 'Job exceeded maximum attempts and became stale'}`.
`staleResetOne` is the per-document update of pass 1. -/
def staleResetOne (now : Nat) (j : Job) : Job :=
  if j.state = .inProgress ∧ (lockExpired now j ∨ startedStale now j) ∧
      j.attempts < maxJobAttempts then
    { j with state := .queued, workerId := none, lockUntil := none }
  else j

/-- Per-document update of `resetStaleJobs`' second `updateMany` pass. -/
def staleFailOne (now : Nat) (j : Job) : Job :=
  if j.state = .inProgress ∧ (lockExpired now j ∨ startedStale now j) ∧
      maxJobAttempts ≤ j.attempts then
    { j with state := .failed, finishedAt := some now,
             result := some (.errorOnly "Job exceeded maximum attempts and became stale") }
  else j

def resetStaleJobs (now : Nat) (jobs : List Job) : List Job :=
  (jobs.map (staleResetOne now)).map (staleFailOne now)

/-- Single-pass per-document description of `resetStaleJobs`' effect. -/
def resetStaleOne (now : Nat) (j : Job) : Job :=
  if j.state = .inProgress ∧ (lockExpired now j ∨ startedStale now j) then
    if j.attempts < maxJobAttempts then
      { j with state := .queued, workerId := none, lockUntil := none }
    else
      { j with state := .failed, finishedAt := some now,
               result := some (.errorOnly "Job exceeded maximum attempts and became stale") }
  else j

/-- One job-queue operation, as invoked by the routes and the worker
(`pick` is the claim's tie-resolution parameter). -/
inductive QueueOp where
  | create (id fileId now : Nat)
  | claim (w : String) (now pick : Nat)
  | updateProgress (jobId : Nat) (p : Progress) (now : Nat)
  | complete (jobId : Nat) (r : JobResult) (now : Nat)
  | fail (jobId : Nat) (emsg estack : String) (now : Nat)
  | appendError (jobId : Nat) (msg : String) (now : Nat)
  | recoverStale (now : Nat)

/-- Whether the operation writes a terminal state unconditionally
(`completeJob` / `failJob`). -/
def isTerminalWrite : QueueOp → Bool
  | .complete _ _ _ => true
  | .fail _ _ _ _ => true
  | _ => false

/-- Apply one operation to the `jobs` collection. -/
def applyOp (op : QueueOp) (jobs : List Job) : List Job :=
  match op with
  | .create id fileId now => createJob id fileId now jobs
  | .claim w now pick => (claimJob w now pick jobs).2
  | .updateProgress jobId p now => updateJobProgress jobId p now jobs
  | .complete jobId r now => completeJob jobId r now jobs
  | .fail jobId emsg estack now => failJob jobId emsg estack now jobs
  | .appendError jobId msg now => addJobError jobId msg now jobs
  | .recoverStale now => resetStaleJobs now jobs

/-- Apply a sequence of operations, oldest first. -/
def applyOps (ops : List QueueOp) (jobs : List Job) : List Job :=
  ops.foldl (fun acc op => applyOp op acc) jobs

/-! ## HTTP route handlers, from `src/src/routes/process.js` -/

/-- The parts of an Express JSON response the claims mention. -/
structure HttpResponse where
  status : Nat
  error : Option String
  message : Option String
deriving DecidableEq, Repr

/-- Build a response value. -/
def mkResp (status : Nat) (error message : Option String) : HttpResponse :=
  { status := status, error := error, message := message }

/-- A hexadecimal digit. -/
def isHexDigit (c : Char) : Bool :=
  c.isDigit || ('a' ≤ c && c ≤ 'f') || ('A' ≤ c && c ≤ 'F')

/-- A string the MongoDB driver accepts as `new ObjectId(s)`:
exactly 24 hexadecimal characters (otherwise the constructor throws). -/
def isValidObjectId (s : String) : Bool :=
  s.length = 24 && s.toList.all isHexDigit

/-- `POST /process/:fileId`: reject ids whose length is not 24 with
400 `{error: 'Invalid fileId format'}`; a 24-character non-hex id makes
`new ObjectId` throw inside `getFileById`, caught by the handler's `catch`
as 500 `{error: 'Failed to create processing job'}`; an unknown file gives
404; otherwise a job is created and 201 returned.  `lookup` abstracts the
`files` collection, defined on valid ObjectId strings. -/
def postProcessHandler (fileId : String) (lookup : String → Bool) : HttpResponse :=
  if fileId.length ≠ 24 then
    { status := 400, error := some "Invalid fileId format", message := none }
  else if !isValidObjectId fileId then
    { status := 500, error := some "Failed to create processing job", message := none }
  else if !lookup fileId then
    { status := 404, error := some "File not found", message := none }
  else
    { status := 201, error := none, message := some "Job created and queued for processing" }

/-- `GET /jobs/:jobId`: same structure with messages
`'Invalid jobId format'` / `'Failed to retrieve job'` / `'Job not found'`. -/
def getJobHandler (jobId : String) (lookup : String → Bool) : HttpResponse :=
  if jobId.length ≠ 24 then
    { status := 400, error := some "Invalid jobId format", message := none }
  else if !isValidObjectId jobId then
    { status := 500, error := some "Failed to retrieve job", message := none }
  else if !lookup jobId then
    { status := 404, error := some "Job not found", message := none }
  else
    { status := 200, error := none, message := none }

/-! ## The upload route, from `src/src/routes/upload.js`

The handler registers busboy callbacks that mutate shared flags
(`responseSent`, `uploadError`, `fileReceived`, `fileMetadata`) and send
the response exactly once.  The embedding replays the callback firings as
an event list folded over the handler state; `fileAccepted` stands for the
file-handler path in which the S3 upload and `createFile` succeeded.

The events are the ones the busboy instance actually emits to this
handler: `file` (split here into accepted / rejected-type / failed),
`field`, `error` and `close`.  The per-file size-limit `'limit'` event is
emitted by busboy on the *file stream*, never on the Busboy instance, so
the `bb.on('limit')` handler registered at the end of the route is dead
code and has no corresponding event: an oversized file part is silently
truncated at `MAX_FILE_SIZE` and then flows through the normal file path
(`fileAccepted` with the truncated byte count). -/

/-- The metadata recorded for a successfully uploaded file. -/
structure FileMeta where
  s3Key : String
  originalName : String
  size : Nat
  contentType : String
deriving DecidableEq, Repr

/-- One busboy callback firing deliverable to the route's handlers. -/
inductive UploadEvent where
  | fileAccepted (meta : FileMeta)
  | fileRejectedType (mime : String)
  | fileFailed (msg : String)
  | busboyError (msg : String)
  | close
deriving DecidableEq, Repr

/-- Events whose handler may send a response or create a file record. -/
def eventSendsResponse : UploadEvent → Bool
  | .fileAccepted _ => true
  | .busboyError _ => true
  | .close => true
  | _ => false

/-- The upload handler's shared state, plus the catalog writes
(`createdFiles`) and the single response written, if any. -/
structure UploadState where
  responseSent : Bool
  uploadError : Option String
  fileReceived : Bool
  fileMetadata : Option FileMeta
  createdFiles : List FileMeta
  response : Option HttpResponse
deriving DecidableEq, Repr

/-- Handler state before any callback fires. -/
def initUploadState : UploadState :=
  { responseSent := false, uploadError := none, fileReceived := false,
    fileMetadata := none, createdFiles := [], response := none }

/-- The message the route's `bb.on('limit')` handler would set — dead
code, since busboy emits the per-file `'limit'` event on the file stream
and the route registers no handler there. -/
def sizeLimitMessage : String :=
  "File size exceeds maximum allowed size of " ++ toString maxFileSize ++ " bytes"

/-- The message built for a disallowed MIME type. -/
def typeNotAllowedMessage (mime : String) : String :=
  "File type " ++ mime ++ " is not allowed. Allowed types: " ++
    String.intercalate ", " allowedFileTypes

/-- One callback firing applied to the handler state, following the
handler bodies in `src/src/routes/upload.js`. -/
def uploadStep (s : UploadState) : UploadEvent → UploadState
  | .fileAccepted m =>
      let s1 := { s with fileReceived := true, fileMetadata := some m,
                         createdFiles := s.createdFiles ++ [m] }
      if s1.responseSent then s1
      else { s1 with responseSent := true,
                     response := some (mkResp 200 none (some "uploaded")) }
  | .fileRejectedType mime =>
      { s with fileReceived := true, uploadError := some (typeNotAllowedMessage mime) }
  | .fileFailed msg =>
      { s with fileReceived := true, uploadError := some msg }
  | .busboyError msg =>
      if s.responseSent then s
      else { s with responseSent := true,
                    response := some (mkResp 500 (some "Upload processing failed") (some msg)) }
  | .close =>
      if s.responseSent then s
      else
        match s.uploadError with
        | some m =>
            { s with responseSent := true,
                     response := some (mkResp 500 (some "Upload failed") (some m)) }
        | none =>
            if !s.fileReceived then
              { s with responseSent := true,
                       response := some (mkResp 400
                         (some "No file uploaded. Please include a file in the \"file\" field.")
                         none) }
            else
              match s.fileMetadata with
              | none =>
                  { s with responseSent := true,
                           response := some (mkResp 500
                             (some "Upload processing incomplete")
                             (some "File was received but processing did not complete. Check server logs.")) }
              | some _ =>
                  { s with responseSent := true,
                           response := some (mkResp 200 none (some "uploaded")) }

/-- Replay a sequence of callback firings from the initial state. -/
def runUpload (events : List UploadEvent) : UploadState :=
  events.foldl uploadStep initUploadState

/-! ## Demonstration inputs used by witnesses and counterexamples -/

/-- The metadata of an oversized upload after busboy truncates the file
stream at the `MAX_FILE_SIZE` byte limit: the observed size is the
truncated byte count. -/
def truncatedMeta : FileMeta :=
  { s3Key := "uploads/2026-10-12/big", originalName := "big.json",
    size := maxFileSize, contentType := "application/json" }

/-- An `in_progress` job with an expired lock and exhausted attempts. -/
def demoStaleJob : Job :=
  { newJob 1 7 0 with state := .inProgress, attempts := maxJobAttempts,
                      startedAt := some 1000, lockUntil := some 2000 }

/-- A job already in the terminal state `failed`. -/
def demoFailedJob : Job :=
  { newJob 1 7 0 with state := .failed }

/-- Three queued jobs: id 1 queued at 10, ids 2 and 3 tied at 5. -/
def demoJobs : List Job :=
  [newJob 1 7 10, newJob 2 8 5, newJob 3 9 5]

/-! ## Helper lemmas -/

theorem staleFail_staleReset (now : Nat) (j : Job) :
    staleFailOne now (staleResetOne now j) = resetStaleOne now j := by
  by_cases hip : j.state = JobState.inProgress
  · by_cases hst : lockExpired now j = true ∨ startedStale now j = true
    · by_cases hat : j.attempts < maxJobAttempts
      · rw [staleResetOne, if_pos ⟨hip, hst, hat⟩, resetStaleOne, if_pos ⟨hip, hst⟩,
          if_pos hat, staleFailOne]
        rw [if_neg]
        simp
      · rw [staleResetOne, if_neg (by simp [hat]), resetStaleOne, if_pos ⟨hip, hst⟩,
          if_neg hat, staleFailOne, if_pos ⟨hip, hst, Nat.le_of_not_lt hat⟩]
    · rw [staleResetOne, if_neg (by simp [hst]), resetStaleOne, if_neg (by simp [hst]),
        staleFailOne, if_neg (by simp [hst])]
  · rw [staleResetOne, if_neg (by simp [hip]), resetStaleOne, if_neg (by simp [hip]),
      staleFailOne, if_neg (by simp [hip])]

theorem resetStale_eq_map (now : Nat) (jobs : List Job) :
    resetStaleJobs now jobs = jobs.map (resetStaleOne now) := by
  unfold resetStaleJobs
  rw [List.map_map]
  exact congrArg (fun φ => List.map φ jobs)
    (funext fun j => staleFail_staleReset now j)

theorem minQueuedAt_none_iff (jobs : List Job) :
    minQueuedAt jobs = none ↔ ∀ j ∈ jobs, j.state ≠ JobState.queued := by
  induction jobs with
  | nil => simp [minQueuedAt]
  | cons j rest ih =>
      unfold minQueuedAt
      by_cases hj : j.state = JobState.queued
      · rw [if_pos hj]
        constructor
        · intro h
          exfalso
          cases hr : minQueuedAt rest <;> rw [hr] at h <;> exact Option.noConfusion h
        · intro h
          exact absurd hj (h j (List.mem_cons_self j rest))
      · rw [if_neg hj, ih]
        constructor
        · intro h k hk
          rcases List.mem_cons.mp hk with rfl | hk'
          · exact hj
          · exact h k hk'
        · intro h k hk
          exact h k (List.mem_cons_of_mem j hk)

theorem minQueuedAt_le (jobs : List Job) (m : Nat) (hm : minQueuedAt jobs = some m) :
    ∀ j ∈ jobs, j.state = JobState.queued → m ≤ j.queuedAt := by
  induction jobs generalizing m with
  | nil => simp [minQueuedAt] at hm
  | cons j rest ih =>
      intro k hk hkq
      unfold minQueuedAt at hm
      by_cases hj : j.state = JobState.queued
      · rw [if_pos hj] at hm
        cases hr : minQueuedAt rest with
        | none =>
            rw [hr] at hm
            simp only [Option.some.injEq] at hm
            rcases List.mem_cons.mp hk with rfl | hk'
            · exact le_of_eq hm.symm
            · exact absurd hkq ((minQueuedAt_none_iff rest).mp hr k hk')
        | some m' =>
            rw [hr] at hm
            simp only [Option.some.injEq] at hm
            rcases List.mem_cons.mp hk with rfl | hk'
            · exact le_trans (le_of_eq hm.symm) (min_le_left _ _)
            · exact le_trans (le_of_eq hm.symm)
                (le_trans (min_le_right _ _) (ih m' hr k hk' hkq))
      · rw [if_neg hj] at hm
        rcases List.mem_cons.mp hk with rfl | hk'
        · exact absurd hkq hj
        · exact ih m hm k hk' hkq

theorem minQueuedAt_mem (jobs : List Job) (m : Nat) (hm : minQueuedAt jobs = some m) :
    ∃ j ∈ jobs, j.state = JobState.queued ∧ j.queuedAt = m := by
  induction jobs generalizing m with
  | nil => simp [minQueuedAt] at hm
  | cons j rest ih =>
      unfold minQueuedAt at hm
      by_cases hj : j.state = JobState.queued
      · rw [if_pos hj] at hm
        cases hr : minQueuedAt rest with
        | none =>
            rw [hr] at hm
            simp only [Option.some.injEq] at hm
            exact ⟨j, List.mem_cons_self j rest, hj, hm⟩
        | some m' =>
            rw [hr] at hm
            simp only [Option.some.injEq] at hm
            rcases le_total j.queuedAt m' with hle | hle
            · exact ⟨j, List.mem_cons_self j rest, hj, by rw [← hm, min_eq_left hle]⟩
            · obtain ⟨k, hk, hkq, hkm⟩ := ih m' hr
              exact ⟨k, List.mem_cons_of_mem j hk, hkq, by rw [hkm, ← hm, min_eq_right hle]⟩
      · rw [if_neg hj] at hm
        obtain ⟨k, hk, hkq, hkm⟩ := ih m hm
        exact ⟨k, List.mem_cons_of_mem j hk, hkq, hkm⟩

theorem countMin_cons_pos (m : Nat) (j : Job) (rest : List Job)
    (hj : j.state = JobState.queued ∧ j.queuedAt = m) :
    countMin m (j :: rest) = countMin m rest + 1 := by
  unfold countMin
  rw [List.filter_cons_of_pos (by simpa using hj)]
  simp

theorem countMin_cons_neg (m : Nat) (j : Job) (rest : List Job)
    (hj : ¬(j.state = JobState.queued ∧ j.queuedAt = m)) :
    countMin m (j :: rest) = countMin m rest := by
  unfold countMin
  rw [List.filter_cons_of_neg (by simpa using hj)]

theorem claimAuxN_cons_pos_zero (w : String) (now m : Nat) (j : Job) (rest : List Job)
    (hj : j.state = JobState.queued ∧ j.queuedAt = m) :
    claimAuxN w now m 0 (j :: rest) =
      (some (applyClaim w now j), applyClaim w now j :: rest) := by
  conv_lhs => unfold claimAuxN
  rw [if_pos hj]

theorem claimAuxN_cons_pos_succ (w : String) (now m : Nat) (k : Nat) (j : Job)
    (rest : List Job) (hj : j.state = JobState.queued ∧ j.queuedAt = m) :
    claimAuxN w now m (k + 1) (j :: rest) =
      ((claimAuxN w now m k rest).1, j :: (claimAuxN w now m k rest).2) := by
  conv_lhs => unfold claimAuxN
  rw [if_pos hj]

theorem claimAuxN_cons_neg (w : String) (now m : Nat) (k : Nat) (j : Job)
    (rest : List Job) (hj : ¬(j.state = JobState.queued ∧ j.queuedAt = m)) :
    claimAuxN w now m k (j :: rest) =
      ((claimAuxN w now m k rest).1, j :: (claimAuxN w now m k rest).2) := by
  conv_lhs => unfold claimAuxN
  rw [if_neg hj]

theorem countMin_pos (jobs : List Job) (m : Nat) (hm : minQueuedAt jobs = some m) :
    0 < countMin m jobs := by
  obtain ⟨j, hj, hq, hqm⟩ := minQueuedAt_mem jobs m hm
  unfold countMin
  have : j ∈ jobs.filter (fun k => decide (k.state = JobState.queued ∧ k.queuedAt = m)) :=
    List.mem_filter.mpr ⟨hj, by simp [hq, hqm]⟩
  exact List.length_pos.mpr (fun he => by rw [he] at this; cases this)

theorem claimAuxN_split (w : String) (now m : Nat) :
    ∀ (k : Nat) (jobs : List Job), k < countMin m jobs →
    ∃ pre q post,
      jobs = pre ++ q :: post ∧
      q.state = JobState.queued ∧ q.queuedAt = m ∧
      claimAuxN w now m k jobs =
        (some (applyClaim w now q), pre ++ applyClaim w now q :: post) := by
  intro k jobs
  induction jobs generalizing k with
  | nil => intro hk; simp [countMin] at hk
  | cons j rest ih =>
      intro hk
      by_cases hj : j.state = JobState.queued ∧ j.queuedAt = m
      · cases k with
        | zero =>
            refine ⟨[], j, rest, rfl, hj.1, hj.2, ?_⟩
            rw [claimAuxN_cons_pos_zero w now m j rest hj]
            rfl
        | succ k' =>
            rw [countMin_cons_pos m j rest hj] at hk
            obtain ⟨pre, q, post, hsplit, hq, hqm, heq⟩ := ih k' (by omega)
            refine ⟨j :: pre, q, post, by rw [hsplit]; rfl, hq, hqm, ?_⟩
            rw [claimAuxN_cons_pos_succ w now m k' j rest hj, heq]
            rfl
      · rw [countMin_cons_neg m j rest hj] at hk
        obtain ⟨pre, q, post, hsplit, hq, hqm, heq⟩ := ih k hk
        refine ⟨j :: pre, q, post, by rw [hsplit]; rfl, hq, hqm, ?_⟩
        rw [claimAuxN_cons_neg w now m k j rest hj, heq]
        rfl

theorem claimAuxN_some_inv (w : String) (now m : Nat) :
    ∀ (k : Nat) (jobs : List Job) (j2 : Job) (l2 : List Job),
    claimAuxN w now m k jobs = (some j2, l2) →
    ∃ q ∈ jobs, q.state = JobState.queued ∧ j2 = applyClaim w now q := by
  intro k jobs
  induction jobs generalizing k with
  | nil => intro j2 l2 h; simp [claimAuxN] at h
  | cons j rest ih =>
      intro j2 l2 h
      by_cases hj : j.state = JobState.queued ∧ j.queuedAt = m
      · cases k with
        | zero =>
            rw [claimAuxN_cons_pos_zero w now m j rest hj] at h
            simp only [Prod.mk.injEq, Option.some.injEq] at h
            exact ⟨j, List.mem_cons_self j rest, hj.1, h.1.symm⟩
        | succ k' =>
            rw [claimAuxN_cons_pos_succ w now m k' j rest hj] at h
            simp only [Prod.mk.injEq] at h
            obtain ⟨q, hq, hqs, hqc⟩ :=
              ih k' j2 ((claimAuxN w now m k' rest).2) (Prod.ext h.1 rfl)
            exact ⟨q, List.mem_cons_of_mem j hq, hqs, hqc⟩
      · rw [claimAuxN_cons_neg w now m k j rest hj] at h
        simp only [Prod.mk.injEq] at h
        obtain ⟨q, hq, hqs, hqc⟩ :=
          ih k j2 ((claimAuxN w now m k rest).2) (Prod.ext h.1 rfl)
        exact ⟨q, List.mem_cons_of_mem j hq, hqs, hqc⟩

theorem claimAuxN_mem (w : String) (now m : Nat) :
    ∀ (k : Nat) (jobs : List Job) (j : Job),
    j ∈ jobs → j.state ≠ JobState.queued →
    j ∈ (claimAuxN w now m k jobs).2 := by
  intro k jobs
  induction jobs generalizing k with
  | nil => intro j hj _; simp at hj
  | cons b rest ih =>
      intro j hj hq
      by_cases hb : b.state = JobState.queued ∧ b.queuedAt = m
      · cases k with
        | zero =>
            rw [claimAuxN_cons_pos_zero w now m b rest hb]
            rcases List.mem_cons.mp hj with rfl | hj'
            · exact absurd hb.1 hq
            · exact List.mem_cons_of_mem _ hj'
        | succ k' =>
            rw [claimAuxN_cons_pos_succ w now m k' b rest hb]
            rcases List.mem_cons.mp hj with rfl | hj'
            · exact List.mem_cons_self _ _
            · exact List.mem_cons_of_mem _ (ih k' j hj' hq)
      · rw [claimAuxN_cons_neg w now m k b rest hb]
        rcases List.mem_cons.mp hj with rfl | hj'
        · exact List.mem_cons_self _ _
        · exact List.mem_cons_of_mem _ (ih k j hj' hq)

theorem claimJob_mem (w : String) (now pick : Nat) (jobs : List Job) (j : Job)
    (hj : j ∈ jobs) (hq : j.state ≠ JobState.queued) :
    j ∈ (claimJob w now pick jobs).2 := by
  unfold claimJob
  cases hm : minQueuedAt jobs with
  | none => exact hj
  | some m => exact claimAuxN_mem w now m _ jobs j hj hq

theorem claimJob_some_inv (w : String) (now pick : Nat) (jobs : List Job)
    (j2 : Job) (l2 : List Job) (h : claimJob w now pick jobs = (some j2, l2)) :
    ∃ q ∈ jobs, q.state = JobState.queued ∧ j2 = applyClaim w now q := by
  unfold claimJob at h
  cases hm : minQueuedAt jobs with
  | none => rw [hm] at h; simp at h
  | some m =>
      rw [hm] at h
      exact claimAuxN_some_inv w now m _ jobs j2 l2 h

theorem doInsert_cases (oracle : Nat → Bool) (s : WorkerState) :
    doInsert oracle s =
      { s with recordsInserted := s.recordsInserted + s.batch.length,
               insertCalls := s.insertCalls + 1,
               effects := s.effects ++
                 [.bulkInsert s.batch.length,
                  .progressUpdate s.linesProcessed
                    (s.recordsInserted + s.batch.length) s.errorCount],
               batch := [] } ∨
    doInsert oracle s =
      { s with errorCount := s.errorCount + s.batch.length,
               insertCalls := s.insertCalls + 1,
               effects := s.effects ++ [.bulkInsert s.batch.length],
               batch := [] } := by
  unfold doInsert
  by_cases h : oracle s.insertCalls <;> simp [h]

theorem insertSizes_doInsert (oracle : Nat → Bool) (s : WorkerState) :
    insertSizes (doInsert oracle s) = insertSizes s ++ [s.batch.length] := by
  rcases doInsert_cases oracle s with h | h <;> rw [h] <;>
    simp [insertSizes, List.filterMap_append]

theorem errorMessages_doInsert (oracle : Nat → Bool) (s : WorkerState) :
    errorMessages (doInsert oracle s) = errorMessages s := by
  rcases doInsert_cases oracle s with h | h <;> rw [h] <;>
    simp [errorMessages, List.filterMap_append]

theorem clean_doInsert (oracle : Nat → Bool) (s : WorkerState)
    (h : ∀ e ∈ s.effects, cleanEff e) :
    ∀ e ∈ (doInsert oracle s).effects, cleanEff e := by
  rcases doInsert_cases oracle s with hc | hc <;> rw [hc] <;>
    intro e he <;> simp only [List.mem_append] at he <;>
    rcases he with he | he
  · exact h e he
  · rcases List.mem_cons.mp he with rfl | he'
    · exact ⟨rfl, rfl⟩
    · rcases List.mem_singleton.mp he' with rfl
      exact ⟨rfl, rfl⟩
  · exact h e he
  · rcases List.mem_singleton.mp he with rfl
    exact ⟨rfl, rfl⟩

theorem doInsert_lineNumber (oracle : Nat → Bool) (s : WorkerState) :
    (doInsert oracle s).lineNumber = s.lineNumber := by
  rcases doInsert_cases oracle s with h | h <;> rw [h]

theorem workerInv_doInsert (oracle : Nat → Bool) (s : WorkerState)
    (h : workerInv s) : workerInv (doInsert oracle s) := by
  rcases doInsert_cases oracle s with hc | hc <;> rw [hc] <;>
    unfold workerInv at h ⊢ <;> simp <;> omega

theorem stepLine_eq_none (B : Nat) (p : String → Nat → Option ParseOutcome)
    (oracle : Nat → Bool) (line : String) (s : WorkerState)
    (hp : p line (s.lineNumber + 1) = none) :
    stepLine B p oracle s line = { s with lineNumber := s.lineNumber + 1 } := by
  unfold stepLine
  rw [hp]

theorem stepLine_eq_err (B : Nat) (p : String → Nat → Option ParseOutcome)
    (oracle : Nat → Bool) (line : String) (s : WorkerState) (m : Nat) (msg raw : String)
    (hp : p line (s.lineNumber + 1) = some (.err m msg raw)) :
    stepLine B p oracle s line =
      { s with lineNumber := s.lineNumber + 1,
               errorCount := s.errorCount + 1,
               effects := s.effects ++ [.addError ("Line " ++ toString m ++ ": " ++ msg)] } := by
  unfold stepLine
  rw [hp]

theorem stepLine_eq_ok (B : Nat) (p : String → Nat → Option ParseOutcome)
    (oracle : Nat → Bool) (line : String) (s : WorkerState) (m : Nat) (d : JSValue)
    (hp : p line (s.lineNumber + 1) = some (.ok m d)) :
    stepLine B p oracle s line =
      if validateParsedData d then
        if B ≤ (pushRecord s m d).batch.length then doInsert oracle (pushRecord s m d)
        else pushRecord s m d
      else
        { s with lineNumber := s.lineNumber + 1,
                 errorCount := s.errorCount + 1,
                 effects := s.effects ++
                   [.addError ("Line " ++ toString m ++ ": Invalid data format")] } := by
  unfold stepLine
  rw [hp]

theorem workerInv_step (B : Nat) (p : String → Nat → Option ParseOutcome)
    (oracle : Nat → Bool) (line : String) (s : WorkerState)
    (h : workerInv s) : workerInv (stepLine B p oracle s line) := by
  cases hp : p line (s.lineNumber + 1) with
  | none =>
      rw [stepLine_eq_none B p oracle line s hp]
      unfold workerInv at h ⊢; simp; omega
  | some o =>
      cases o with
      | err m msg raw =>
          rw [stepLine_eq_err B p oracle line s m msg raw hp]
          unfold workerInv at h ⊢; simp; omega
      | ok m d =>
          rw [stepLine_eq_ok B p oracle line s m d hp]
          by_cases hv : validateParsedData d
          · rw [if_pos hv]
            have h1 : workerInv (pushRecord s m d) := by
              unfold workerInv at h ⊢
              unfold pushRecord
              simp
              omega
            by_cases hb : B ≤ (pushRecord s m d).batch.length
            · rw [if_pos hb]; exact workerInv_doInsert oracle _ h1
            · rw [if_neg hb]; exact h1
          · rw [if_neg hv]
            unfold workerInv at h ⊢; simp; omega

theorem workerInv_foldl (B : Nat) (p : String → Nat → Option ParseOutcome)
    (oracle : Nat → Bool) :
    ∀ (lines : List String) (s : WorkerState), workerInv s →
      workerInv (lines.foldl (stepLine B p oracle) s) := by
  intro lines
  induction lines with
  | nil => intro s h; exact h
  | cons l ls ih =>
      intro s h
      exact ih (stepLine B p oracle s l) (workerInv_step B p oracle l s h)

theorem stepLine_lineNumber (B : Nat) (p : String → Nat → Option ParseOutcome)
    (oracle : Nat → Bool) (line : String) (s : WorkerState) :
    (stepLine B p oracle s line).lineNumber = s.lineNumber + 1 := by
  cases hp : p line (s.lineNumber + 1) with
  | none => rw [stepLine_eq_none B p oracle line s hp]
  | some o =>
      cases o with
      | err m msg raw => rw [stepLine_eq_err B p oracle line s m msg raw hp]
      | ok m d =>
          rw [stepLine_eq_ok B p oracle line s m d hp]
          by_cases hv : validateParsedData d
          · rw [if_pos hv]
            by_cases hb : B ≤ (pushRecord s m d).batch.length
            · rw [if_pos hb, doInsert_lineNumber]; rfl
            · rw [if_neg hb]; rfl
          · rw [if_neg hv]

theorem foldl_lineNumber (B : Nat) (p : String → Nat → Option ParseOutcome)
    (oracle : Nat → Bool) :
    ∀ (lines : List String) (s : WorkerState),
      (lines.foldl (stepLine B p oracle) s).lineNumber = s.lineNumber + lines.length := by
  intro lines
  induction lines with
  | nil => intro s; simp
  | cons l ls ih =>
      intro s
      rw [List.foldl_cons, ih, stepLine_lineNumber]
      simp [Nat.add_assoc, Nat.add_comm 1 ls.length]

theorem clean_step (B : Nat) (p : String → Nat → Option ParseOutcome)
    (oracle : Nat → Bool) (line : String) (s : WorkerState)
    (h : ∀ e ∈ s.effects, cleanEff e) :
    ∀ e ∈ (stepLine B p oracle s line).effects, cleanEff e := by
  cases hp : p line (s.lineNumber + 1) with
  | none =>
      rw [stepLine_eq_none B p oracle line s hp]
      exact h
  | some o =>
      cases o with
      | err m msg raw =>
          rw [stepLine_eq_err B p oracle line s m msg raw hp]
          intro e he
          simp only [List.mem_append] at he
          rcases he with he | he
          · exact h e he
          · rcases List.mem_singleton.mp he with rfl
            exact ⟨rfl, rfl⟩
      | ok m d =>
          rw [stepLine_eq_ok B p oracle line s m d hp]
          by_cases hv : validateParsedData d
          · rw [if_pos hv]
            have h1 : ∀ e ∈ (pushRecord s m d).effects, cleanEff e := h
            by_cases hb : B ≤ (pushRecord s m d).batch.length
            · rw [if_pos hb]; exact clean_doInsert oracle _ h1
            · rw [if_neg hb]; exact h1
          · rw [if_neg hv]
            intro e he
            simp only [List.mem_append] at he
            rcases he with he | he
            · exact h e he
            · rcases List.mem_singleton.mp he with rfl
              exact ⟨rfl, rfl⟩

theorem clean_foldl (B : Nat) (p : String → Nat → Option ParseOutcome)
    (oracle : Nat → Bool) :
    ∀ (lines : List String) (s : WorkerState),
      (∀ e ∈ s.effects, cleanEff e) →
      ∀ e ∈ (lines.foldl (stepLine B p oracle) s).effects, cleanEff e := by
  intro lines
  induction lines with
  | nil => intro s h; exact h
  | cons l ls ih =>
      intro s h
      exact ih (stepLine B p oracle s l) (clean_step B p oracle l s h)

theorem doInsert_batch (oracle : Nat → Bool) (s : WorkerState) :
    (doInsert oracle s).batch = [] := by
  rcases doInsert_cases oracle s with h | h <;> rw [h]

theorem insertSizes_pushRecord (s : WorkerState) (m : Nat) (d : JSValue) :
    insertSizes (pushRecord s m d) = insertSizes s := rfl

theorem pushRecord_batch_length (s : WorkerState) (m : Nat) (d : JSValue) :
    (pushRecord s m d).batch.length = s.batch.length + 1 := by
  simp [pushRecord]

theorem pushRecord_lp (s : WorkerState) (m : Nat) (d : JSValue) :
    (pushRecord s m d).linesProcessed = s.linesProcessed + 1 := rfl

theorem doInsert_lp (oracle : Nat → Bool) (s : WorkerState) :
    (doInsert oracle s).linesProcessed = s.linesProcessed := by
  rcases doInsert_cases oracle s with h | h <;> rw [h]

theorem batchInv_step (B : Nat) (p : String → Nat → Option ParseOutcome)
    (oracle : Nat → Bool) (line : String) (s : WorkerState)
    (hB : 1 ≤ B) (h : batchInv B s) : batchInv B (stepLine B p oracle s line) := by
  obtain ⟨h1, h2⟩ := h
  cases hp : p line (s.lineNumber + 1) with
  | none =>
      rw [stepLine_eq_none B p oracle line s hp]
      exact ⟨h1, h2⟩
  | some o =>
      cases o with
      | err m msg raw =>
          rw [stepLine_eq_err B p oracle line s m msg raw hp]
          refine ⟨h1, ?_⟩
          simpa [insertSizes, List.filterMap_append] using h2
      | ok m d =>
          rw [stepLine_eq_ok B p oracle line s m d hp]
          by_cases hv : validateParsedData d
          · rw [if_pos hv]
            have hid := Nat.div_add_mod s.linesProcessed B
            by_cases hb : B ≤ (pushRecord s m d).batch.length
            · rw [if_pos hb]
              rw [pushRecord_batch_length] at hb
              have hblt : s.linesProcessed % B < B := Nat.mod_lt _ (by omega)
              have hbB : s.linesProcessed % B + 1 = B := by omega
              have hlp1 : s.linesProcessed + 1 = B * (s.linesProcessed / B + 1) := by
                rw [Nat.mul_add, Nat.mul_one]
                omega
              constructor
              · rw [doInsert_batch, doInsert_lp, pushRecord_lp, hlp1,
                  Nat.mul_mod_right]
                rfl
              · rw [insertSizes_doInsert, insertSizes_pushRecord, h2,
                  pushRecord_batch_length, h1, hbB, doInsert_lp, pushRecord_lp, hlp1,
                  Nat.mul_div_cancel_left _ (by omega : 0 < B), List.replicate_succ']
            · rw [if_neg hb]
              rw [pushRecord_batch_length] at hb
              have hblt : s.linesProcessed % B + 1 < B := by omega
              have hrw : s.linesProcessed + 1 =
                  (s.linesProcessed % B + 1) + B * (s.linesProcessed / B) := by
                omega
              constructor
              · rw [pushRecord_batch_length, pushRecord_lp, h1, hrw,
                  Nat.add_mul_mod_self_left, Nat.mod_eq_of_lt hblt]
              · rw [insertSizes_pushRecord, h2, pushRecord_lp, hrw,
                  Nat.add_mul_div_left _ _ (by omega : 0 < B),
                  Nat.div_eq_of_lt hblt, Nat.zero_add]
          · rw [if_neg hv]
            refine ⟨h1, ?_⟩
            simpa [insertSizes, List.filterMap_append] using h2

theorem batchInv_foldl (B : Nat) (p : String → Nat → Option ParseOutcome)
    (oracle : Nat → Bool) (hB : 1 ≤ B) :
    ∀ (lines : List String) (s : WorkerState), batchInv B s →
      batchInv B (lines.foldl (stepLine B p oracle) s) := by
  intro lines
  induction lines with
  | nil => intro s h; exact h
  | cons l ls ih =>
      intro s h
      exact ih (stepLine B p oracle s l) (batchInv_step B p oracle l s hB h)

theorem errorMessages_step (B : Nat) (p : String → Nat → Option ParseOutcome)
    (oracle : Nat → Bool) (line : String) (s : WorkerState) (hp : neverFails p)
    (h : ∀ msg ∈ errorMessages s, ∃ k : Nat, msg = "Line " ++ toString k ++ ": Invalid data format") :
    ∀ msg ∈ errorMessages (stepLine B p oracle s line),
      ∃ k : Nat, msg = "Line " ++ toString k ++ ": Invalid data format" := by
  rcases hp line (s.lineNumber + 1) with hnone | ⟨d, hd⟩
  · rw [stepLine_eq_none B p oracle line s hnone]
    exact h
  · rw [stepLine_eq_ok B p oracle line s _ d hd]
    by_cases hv : validateParsedData d
    · rw [if_pos hv]
      by_cases hb : B ≤ (pushRecord s (s.lineNumber + 1) d).batch.length
      · rw [if_pos hb]
        intro msg hmsg
        rw [errorMessages_doInsert] at hmsg
        exact h msg hmsg
      · rw [if_neg hb]
        exact h
    · rw [if_neg hv]
      intro msg hmsg
      unfold errorMessages at hmsg h
      simp only [List.filterMap_append] at hmsg
      rcases List.mem_append.mp hmsg with hold | hnew
      · exact h msg hold
      · have hmsgeq : msg = "Line " ++ toString (s.lineNumber + 1) ++ ": Invalid data format" := by
          simpa using hnew
        exact ⟨s.lineNumber + 1, hmsgeq⟩

theorem errorMessages_foldl (B : Nat) (p : String → Nat → Option ParseOutcome)
    (oracle : Nat → Bool) (hp : neverFails p) :
    ∀ (lines : List String) (s : WorkerState),
      (∀ msg ∈ errorMessages s, ∃ k : Nat, msg = "Line " ++ toString k ++ ": Invalid data format") →
      ∀ msg ∈ errorMessages (lines.foldl (stepLine B p oracle) s),
        ∃ k : Nat, msg = "Line " ++ toString k ++ ": Invalid data format" := by
  intro lines
  induction lines with
  | nil => intro s h; exact h
  | cons l ls ih =>
      intro s h
      exact ih (stepLine B p oracle s l) (errorMessages_step B p oracle l s hp h)

theorem clean_processStream (B : Nat) (p : String → Nat → Option ParseOutcome)
    (oracle : Nat → Bool) (lines : List String) :
    ∀ e ∈ (processStream B p oracle lines).effects, cleanEff e := by
  unfold processStream flushRemaining runLines
  have h0 : ∀ e ∈ initWorkerState.effects, cleanEff e := by
    intro e he; simp [initWorkerState] at he
  have h1 := clean_foldl B p oracle lines initWorkerState h0
  by_cases hb : (lines.foldl (stepLine B p oracle) initWorkerState).batch.length > 0
  · rw [if_pos hb]; exact clean_doInsert oracle _ h1
  · rw [if_neg hb]; exact h1

theorem errorMessages_processStream (B : Nat) (p : String → Nat → Option ParseOutcome)
    (oracle : Nat → Bool) (lines : List String) (hp : neverFails p) :
    ∀ msg ∈ errorMessages (processStream B p oracle lines),
      ∃ k : Nat, msg = "Line " ++ toString k ++ ": Invalid data format" := by
  unfold processStream flushRemaining runLines
  have h1 := errorMessages_foldl B p oracle hp lines initWorkerState
    (by intro msg hm; simp [errorMessages, initWorkerState] at hm)
  by_cases hb : (lines.foldl (stepLine B p oracle) initWorkerState).batch.length > 0
  · rw [if_pos hb]
    intro msg hmsg
    rw [errorMessages_doInsert] at hmsg
    exact h1 msg hmsg
  · rw [if_neg hb]; exact h1

theorem parseText_ok (line : String) (n : Nat) (h : ¬ jsTrim line = "") :
    parseTextLine line n = some (.ok n (.vObj [("text", .vStr line)])) := by
  simp [parseTextLine, h]

theorem parseCsv_ok (line : String) (n : Nat) (h : ¬ jsTrim line = "") :
    parseCsvLine line n none =
      some (.ok n (.vArr (((jsSplitOn ',' (jsTrim line)).map jsTrim).map JSValue.vStr))) := by
  simp [parseCsvLine, h]

theorem parseJson_shape (jp : String → Except String JSValue) (line : String) (n : Nat) :
    parseJsonLine jp line n = none ∨ (∃ v, parseJsonLine jp line n = some (.ok n v)) ∨
      ∃ msg raw, parseJsonLine jp line n = some (.err n msg raw) := by
  by_cases h : jsTrim line = ""
  · left; simp [parseJsonLine, h]
  · cases hj : jp (jsTrim line) with
    | ok v => right; left; exact ⟨v, by simp [parseJsonLine, h, hj]⟩
    | error m => right; right; exact ⟨m, line.take 200, by simp [parseJsonLine, h, hj]⟩

theorem parseAuto_ok (jp : String → Except String JSValue) (line : String) (n : Nat)
    (h : ¬ jsTrim line = "") :
    ∃ v, parseLineAuto jp line n = some (.ok n v) := by
  by_cases h1 : (jsStartsWithChar (jsTrim line) '\x7b' || jsStartsWithChar (jsTrim line) '[') = true
  · rcases parseJson_shape jp line n with hj | ⟨v, hj⟩ | ⟨m0, r0, hj⟩
    · by_cases h2 : jsIncludesChar (jsTrim line) ',' = true
      · refine ⟨JSValue.vArr (((jsSplitOn ',' (jsTrim line)).map jsTrim).map JSValue.vStr), ?_⟩
        simp [parseLineAuto, h, h1, hj, h2, parseCsv_ok line n h]
      · refine ⟨JSValue.vObj [("text", JSValue.vStr line)], ?_⟩
        simp [parseLineAuto, h, h1, hj, h2, parseText_ok line n h]
    · exact ⟨v, by simp [parseLineAuto, h, h1, hj]⟩
    · by_cases h2 : jsIncludesChar (jsTrim line) ',' = true
      · refine ⟨JSValue.vArr (((jsSplitOn ',' (jsTrim line)).map jsTrim).map JSValue.vStr), ?_⟩
        simp [parseLineAuto, h, h1, hj, h2, parseCsv_ok line n h]
      · refine ⟨JSValue.vObj [("text", JSValue.vStr line)], ?_⟩
        simp [parseLineAuto, h, h1, hj, h2, parseText_ok line n h]
  · by_cases h2 : jsIncludesChar (jsTrim line) ',' = true
    · refine ⟨JSValue.vArr (((jsSplitOn ',' (jsTrim line)).map jsTrim).map JSValue.vStr), ?_⟩
      simp [parseLineAuto, h, h1, h2, parseCsv_ok line n h]
    · refine ⟨JSValue.vObj [("text", JSValue.vStr line)], ?_⟩
      simp [parseLineAuto, h, h1, h2, parseText_ok line n h]

theorem parseAuto_none_iff (jp : String → Except String JSValue) (line : String) (n : Nat) :
    parseLineAuto jp line n = none ↔ jsTrim line = "" := by
  constructor
  · intro hnone
    by_contra h
    obtain ⟨v, hv⟩ := parseAuto_ok jp line n h
    rw [hv] at hnone
    cases hnone
  · intro h
    simp [parseLineAuto, h]

theorem neverFails_text : neverFails parseTextLine := by
  intro line n
  by_cases h : jsTrim line = ""
  · left; simp [parseTextLine, h]
  · right; exact ⟨_, parseText_ok line n h⟩

theorem neverFails_csv : neverFails (fun line n => parseCsvLine line n none) := by
  intro line n
  by_cases h : jsTrim line = ""
  · left; simp [parseCsvLine, h]
  · right; exact ⟨_, parseCsv_ok line n h⟩

theorem neverFails_auto (jp : String → Except String JSValue) :
    neverFails (parseLineAuto jp) := by
  intro line n
  by_cases h : jsTrim line = ""
  · left; exact (parseAuto_none_iff jp line n).mpr h
  · right; exact parseAuto_ok jp line n h

theorem upload_quiet_step (s : UploadState) (e : UploadEvent)
    (he : eventSendsResponse e = false)
    (h1 : s.responseSent = false) (h2 : s.response = none) (h3 : s.createdFiles = []) :
    (uploadStep s e).responseSent = false ∧ (uploadStep s e).response = none ∧
      (uploadStep s e).createdFiles = [] := by
  cases e <;> simp [eventSendsResponse] at he <;> simp [uploadStep, h1, h2, h3]

theorem upload_quiet : ∀ (pre : List UploadEvent) (s : UploadState),
    (∀ e ∈ pre, eventSendsResponse e = false) →
    s.responseSent = false → s.response = none → s.createdFiles = [] →
    (pre.foldl uploadStep s).responseSent = false ∧
      (pre.foldl uploadStep s).response = none ∧
      (pre.foldl uploadStep s).createdFiles = [] := by
  intro pre
  induction pre with
  | nil => intro s _ h1 h2 h3; exact ⟨h1, h2, h3⟩
  | cons e es ih =>
      intro s h h1 h2 h3
      obtain ⟨g1, g2, g3⟩ :=
        upload_quiet_step s e (h e (List.mem_cons_self e es)) h1 h2 h3
      exact ih (uploadStep s e) (fun e' he' => h e' (List.mem_cons_of_mem e he')) g1 g2 g3

theorem terminal_step (op : QueueOp) (jobs : List Job) (j : Job)
    (hop : isTerminalWrite op = false) (hj : j ∈ jobs)
    (hterm : j.state = JobState.completed ∨ j.state = JobState.failed) :
    ∃ j', j' ∈ applyOp op jobs ∧ j'.id = j.id ∧ j'.state = j.state := by
  have hnq : j.state ≠ JobState.queued := by
    rcases hterm with h | h <;> rw [h] <;> intro hc <;> cases hc
  have hnip : j.state ≠ JobState.inProgress := by
    rcases hterm with h | h <;> rw [h] <;> intro hc <;> cases hc
  cases op with
  | create id fid now =>
      exact ⟨j, List.mem_append_left _ hj, rfl, rfl⟩
  | claim w now pick =>
      exact ⟨j, claimJob_mem w now pick jobs j hj hnq, rfl, rfl⟩
  | updateProgress jid pr now =>
      refine ⟨_, List.mem_map_of_mem
        (fun k => if k.id = jid then
          { k with progress := pr, lockUntil := some (now + jobLockTimeoutMs) }
        else k) hj, ?_, ?_⟩ <;> by_cases hid : j.id = jid <;> simp [hid]
  | complete jid r now => simp [isTerminalWrite] at hop
  | fail jid emsg estack now => simp [isTerminalWrite] at hop
  | appendError jid msg now =>
      refine ⟨_, List.mem_map_of_mem
        (fun k => if k.id = jid then
          { k with errors := capLast100 (k.errors ++ [{ message := msg, timestamp := now }]),
                   progress := { k.progress with errors := k.progress.errors + 1 } }
        else k) hj, ?_, ?_⟩ <;> by_cases hid : j.id = jid <;> simp [hid]
  | recoverStale now =>
      have : applyOp (QueueOp.recoverStale now) jobs = jobs.map (resetStaleOne now) :=
        resetStale_eq_map now jobs
      rw [this]
      refine ⟨resetStaleOne now j, List.mem_map_of_mem _ hj, ?_, ?_⟩ <;>
        unfold resetStaleOne <;> rw [if_neg (fun hc => hnip hc.1)]

/-! ## The claims -/

/-- C1 counterexample: in `demoJobs` the jobs with ids 2 and 3 are both
`queued` with the minimal `queuedAt` 5, id 2 earlier in insertion order;
yet the execution with tie resolution `pick = 1` — admitted by the
program, since the single-key sort `{queuedAt: 1}` leaves the order of
equal keys unspecified — claims the job with id 3, not the one the
claimed insertion-order tie-break dictates. -/
theorem c1_claim_counterexample :
    newJob 2 8 5 ∈ demoJobs ∧ newJob 3 9 5 ∈ demoJobs ∧
    (newJob 2 8 5).state = JobState.queued ∧ (newJob 3 9 5).state = JobState.queued ∧
    (newJob 2 8 5).queuedAt = (newJob 3 9 5).queuedAt ∧
    (newJob 2 8 5).id < (newJob 3 9 5).id ∧
    (claimJob "w1" 50 1 demoJobs).1 = some (applyClaim "w1" 50 (newJob 3 9 5)) ∧
    (applyClaim "w1" 50 (newJob 3 9 5)).id ≠ (newJob 2 8 5).id := by
  decide

/-- C1 (amended): `claim(worker_id)` on a queue with at least one
`queued` job atomically transitions exactly one queued job with the
minimal `queuedAt` to `in_progress` — under every resolution `pick` of
the tie, since the single-key sort gives no tie-break guarantee —
assigns the worker, sets `startedAt = now` and
`lockUntil = now + LOCK_TIMEOUT`, increments the attempt counter, and
returns that job's post-image; when no queued job exists it returns
`none`; and a subsequent claim on the updated collection, under any tie
resolution, can never transition the same job out of `queued`
(sequential rendering of atomicity). -/
theorem c1_claim_fifo (w : String) (now pick : Nat) (jobs : List Job)
    (hids : (jobs.map Job.id).Nodup) :
    ((∀ j ∈ jobs, j.state ≠ JobState.queued) → claimJob w now pick jobs = (none, jobs)) ∧
    ((∃ j ∈ jobs, j.state = JobState.queued) → claimSpec w now pick jobs) := by
  constructor
  · intro h
    unfold claimJob
    rw [(minQueuedAt_none_iff jobs).mpr h]
  · rintro ⟨j0, hj0, hq0⟩
    cases hm : minQueuedAt jobs with
    | none => exact absurd hq0 ((minQueuedAt_none_iff jobs).mp hm j0 hj0)
    | some m =>
        obtain ⟨pre, q, post, hsplit, hq, hqm, heq⟩ :=
          claimAuxN_split w now m (pick % countMin m jobs) jobs
            (Nat.mod_lt pick (countMin_pos jobs m hm))
        have hq_pre : ∀ k ∈ pre, k.id ≠ q.id := by
          intro k hk hkeq
          have hnd := hids
          rw [hsplit, List.map_append, List.map_cons] at hnd
          have hdisj := (List.nodup_append.mp hnd).2.2
          exact hdisj (List.mem_map_of_mem Job.id hk)
            (hkeq ▸ List.mem_cons_self q.id (post.map Job.id))
        have hq_post : ∀ k ∈ post, k.id ≠ q.id := by
          intro k hk hkeq
          have hnd := hids
          rw [hsplit, List.map_append, List.map_cons] at hnd
          have hcons := ((List.nodup_append.mp hnd).2.1)
          exact (List.nodup_cons.mp hcons).1 (hkeq ▸ List.mem_map_of_mem Job.id hk)
        refine ⟨pre, q, post, hsplit, hq, ?_, rfl, rfl, rfl, rfl, rfl, rfl, ?_, ?_⟩
        · unfold claimJob
          rw [hm]
          exact heq
        · intro k hk hkq
          rw [hqm]
          exact minQueuedAt_le jobs m hm k hk hkq
        · intro w2 now2 pick2 j2 l2 hcl
          obtain ⟨k, hk2, hkq2, hkc⟩ := claimJob_some_inv w2 now2 pick2 _ j2 l2 hcl
          have hkid : k.id ≠ q.id := by
            rcases List.mem_append.mp hk2 with hkpre | hkrest
            · exact hq_pre k hkpre
            · rcases List.mem_cons.mp hkrest with rfl | hkpost
              · exact absurd hkq2 (by simp [applyClaim])
              · exact hq_post k hkpost
          rw [hkc]
          exact hkid

/-- C1 witness: on three queued jobs (id 1 queued at 10, ids 2 and 3
tied at 5), the claim under tie resolution 0 satisfies the full
specification. -/
theorem c1_claim_fifo_witness : claimSpec "w1" 50 0 demoJobs :=
  (c1_claim_fifo "w1" 50 0 demoJobs (by decide)).2
    ⟨newJob 2 8 5, by decide, rfl⟩

/-- C2 counterexample: a stale `in_progress` job with exhausted attempts
is failed with result message `"Job exceeded maximum attempts and became
stale"`, not the claimed `"exceeded maximum attempts and became stale"`. -/
theorem c2_recover_stale_counterexample :
    ((resetStaleJobs 1000000000 [demoStaleJob]).map
        (fun j => (j.state, resultMessage j.result))) =
      [(JobState.failed, some "Job exceeded maximum attempts and became stale")] ∧
    ("Job exceeded maximum attempts and became stale" : String) ≠
      "exceeded maximum attempts and became stale" := by
  constructor
  · rfl
  · decide

/-- C2 (amended): `recover_stale` acts per job: every stale
`in_progress` job (expired lock or `startedAt` older than
STALE_THRESHOLD) with `attempts < MAX_ATTEMPTS` is reset to `queued`
with null worker and lock; every such job with `attempts ≥ MAX_ATTEMPTS`
is set to `failed` with result message `"Job exceeded maximum attempts
and became stale"`; all other jobs are unchanged (`resetStaleOne` is
exactly this per-job description). -/
theorem c2_recover_stale (now : Nat) (jobs : List Job) :
    resetStaleJobs now jobs = jobs.map (resetStaleOne now) :=
  resetStale_eq_map now jobs

/-- C3 counterexample: `completeJob` on a job already in terminal state
`failed` moves it to `completed` — the code guards no terminal state. -/
theorem c3_terminal_counterexample :
    demoFailedJob.state = JobState.failed ∧
    (applyOp (QueueOp.complete 1 (JobResult.summary 0 0 0 true) 99) [demoFailedJob]).map
        Job.state = [JobState.completed] ∧
    JobState.completed ≠ JobState.failed := by
  refine ⟨rfl, rfl, by decide⟩

/-- C3 (amended): `completed` and `failed` are terminal for every
sequence of operations not containing `complete` or `fail`: create,
claim, update_progress, append_error and recover_stale never change a
terminal job's state; `complete` and `fail` themselves overwrite the
state of the addressed document unconditionally. -/
theorem c3_terminal_states (ops : List QueueOp) (jobs : List Job) (j : Job)
    (hops : ∀ op ∈ ops, isTerminalWrite op = false)
    (hj : j ∈ jobs) (hterm : j.state = JobState.completed ∨ j.state = JobState.failed) :
    ∃ j', j' ∈ applyOps ops jobs ∧ j'.id = j.id ∧ j'.state = j.state := by
  induction ops generalizing jobs j with
  | nil => exact ⟨j, hj, rfl, rfl⟩
  | cons op ops ih =>
      obtain ⟨j1, hj1, hid1, hst1⟩ :=
        terminal_step op jobs j (hops op (List.mem_cons_self op ops)) hj hterm
      have hterm1 : j1.state = JobState.completed ∨ j1.state = JobState.failed := by
        rw [hst1]; exact hterm
      obtain ⟨j2, hj2, hid2, hst2⟩ :=
        ih (applyOp op jobs) j1 (fun o ho => hops o (List.mem_cons_of_mem op ho)) hj1 hterm1
      exact ⟨j2, hj2, hid2.trans hid1, hst2.trans hst1⟩

/-- C3 witness: a failed job keeps its state across a recovery pass
followed by a claim. -/
theorem c3_terminal_states_witness :
    ∃ j', j' ∈ applyOps [QueueOp.recoverStale 50, QueueOp.claim "w2" 60 0] [demoFailedJob] ∧
      j'.id = demoFailedJob.id ∧ j'.state = demoFailedJob.state :=
  c3_terminal_states [QueueOp.recoverStale 50, QueueOp.claim "w2" 60 0] [demoFailedJob]
    demoFailedJob (by intro op hop; fin_cases hop <;> rfl) (by simp) (Or.inr rfl)

/-- C4 counterexample: the single-line input `"5"` under the JSON parser
completes successfully (`success: true`) with `linesProcessed = 0`,
`recordsInserted = 0`, `errorCount = 1` and no empty lines, violating the
claimed bound `recordsInserted + errorCount ≤ linesProcessed +
emptyLines` (1 ≤ 0 fails). -/
theorem c4_counters_counterexample :
    processJobEffects 1000 (parseJsonLine jsonParseLit) (fun _ => true) ["5"] =
      [WorkerEffect.addError "Line 1: Invalid data format",
       WorkerEffect.completeEff 0 0 1 true,
       WorkerEffect.fileStatusEff "processed"] ∧
    ¬ ((processStream 1000 (parseJsonLine jsonParseLit) (fun _ => true) ["5"]).recordsInserted +
         (processStream 1000 (parseJsonLine jsonParseLit) (fun _ => true) ["5"]).errorCount ≤
       (processStream 1000 (parseJsonLine jsonParseLit) (fun _ => true) ["5"]).linesProcessed +
         countEmptyLines ["5"]) := by
  constructor <;> decide

/-- C4 (amended): for every completed job — with any parser, insert
oracle and batch size — the final counters satisfy
`recordsInserted ≤ linesProcessed` and
`recordsInserted + errorCount ≤ total input lines` (and the line counter
equals the number of input lines). -/
theorem c4_counters (B : Nat) (p : String → Nat → Option ParseOutcome)
    (oracle : Nat → Bool) (lines : List String) :
    (processStream B p oracle lines).recordsInserted ≤
      (processStream B p oracle lines).linesProcessed ∧
    (processStream B p oracle lines).recordsInserted +
      (processStream B p oracle lines).errorCount ≤ lines.length ∧
    (processStream B p oracle lines).lineNumber = lines.length := by
  have hinv : workerInv (processStream B p oracle lines) := by
    unfold processStream flushRemaining runLines
    have h0 : workerInv initWorkerState := by constructor <;> simp [initWorkerState]
    have h1 := workerInv_foldl B p oracle lines initWorkerState h0
    by_cases hb : (lines.foldl (stepLine B p oracle) initWorkerState).batch.length > 0
    · rw [if_pos hb]; exact workerInv_doInsert oracle _ h1
    · rw [if_neg hb]; exact h1
  have hln : (processStream B p oracle lines).lineNumber = lines.length := by
    unfold processStream flushRemaining runLines
    by_cases hb : (lines.foldl (stepLine B p oracle) initWorkerState).batch.length > 0
    · rw [if_pos hb, doInsert_lineNumber, foldl_lineNumber]
      simp [initWorkerState]
    · rw [if_neg hb, foldl_lineNumber]
      simp [initWorkerState]
  obtain ⟨i1, i2⟩ := hinv
  refine ⟨by omega, by omega, hln⟩

/-- C5 counterexample: on the one-line input `["a"]` the success path's
effect trace is `[bulkInsert, progressUpdate, complete, fileStatus]` —
the `completeJob` call strictly precedes the `updateFileStatus` call, so
the claimed order (file status first, then complete) does not hold. -/
theorem c5_order_counterexample :
    processJobEffects 2 parseTextLine (fun _ => true) ["a"] =
      [WorkerEffect.bulkInsert 1, WorkerEffect.progressUpdate 1 1 0,
       WorkerEffect.completeEff 1 1 0 true, WorkerEffect.fileStatusEff "processed"] ∧
    List.findIdx isCompleteEff (processJobEffects 2 parseTextLine (fun _ => true) ["a"]) <
      List.findIdx isFileStatusEff (processJobEffects 2 parseTextLine (fun _ => true) ["a"]) ∧
    ¬ (List.findIdx isFileStatusEff (processJobEffects 2 parseTextLine (fun _ => true) ["a"]) <
       List.findIdx isCompleteEff (processJobEffects 2 parseTextLine (fun _ => true) ["a"])) := by
  refine ⟨by decide, by decide, by decide⟩

/-- C5 (amended): on the worker's success path the effect trace always
ends with the `completeJob` call immediately followed by the
`updateFileStatus(fileId, 'processed')` call — the job-completion update
precedes the file-status update, and neither occurs earlier in the
trace. -/
theorem c5_order (B : Nat) (p : String → Nat → Option ParseOutcome)
    (oracle : Nat → Bool) (lines : List String) :
    ∃ pre lp ri ec,
      processJobEffects B p oracle lines =
        pre ++ [WorkerEffect.completeEff lp ri ec true,
                WorkerEffect.fileStatusEff "processed"] ∧
      ∀ e ∈ pre, isCompleteEff e = false ∧ isFileStatusEff e = false := by
  refine ⟨(processStream B p oracle lines).effects, _, _, _, rfl, ?_⟩
  intro e he
  exact clean_processStream B p oracle lines e he

/-- C6 counterexample: a 24-character identifier that is not hexadecimal
passes the route's length-only check, then `new ObjectId` throws and the
handler's catch returns 500 — not the claimed 400. -/
theorem c6_id_validation_counterexample :
    ("zzzzzzzzzzzzzzzzzzzzzzzz" : String).length = 24 ∧
    isValidObjectId "zzzzzzzzzzzzzzzzzzzzzzzz" = false ∧
    (postProcessHandler "zzzzzzzzzzzzzzzzzzzzzzzz" (fun _ => false)).status = 500 ∧
    (postProcessHandler "zzzzzzzzzzzzzzzzzzzzzzzz" (fun _ => false)).status ≠ 400 ∧
    (getJobHandler "zzzzzzzzzzzzzzzzzzzzzzzz" (fun _ => false)).status = 500 := by
  refine ⟨by decide, by decide, rfl, by decide, rfl⟩

/-- C6 (amended): both id-taking endpoints return 400 exactly when the
id's length differs from 24 (`{error: 'Invalid fileId format'}` on the
process endpoint); a 24-character id that is not all-hex yields 500 (the
ObjectId constructor throws inside the try block); a well-formed id that
matches no stored record yields 404. -/
theorem c6_id_validation (id : String) (lookup : String → Bool) :
    (id.length ≠ 24 →
      postProcessHandler id lookup = mkResp 400 (some "Invalid fileId format") none ∧
      (getJobHandler id lookup).status = 400) ∧
    (id.length = 24 → isValidObjectId id = false →
      (postProcessHandler id lookup).status = 500 ∧
      (getJobHandler id lookup).status = 500) ∧
    (isValidObjectId id = true → lookup id = false →
      (postProcessHandler id lookup).status = 404 ∧
      (getJobHandler id lookup).status = 404) := by
  refine ⟨?_, ?_, ?_⟩
  · intro h
    constructor
    · unfold postProcessHandler
      rw [if_pos h]
      rfl
    · unfold getJobHandler
      rw [if_pos h]
  · intro h1 h2
    constructor
    · unfold postProcessHandler
      rw [if_neg (by simp [h1]), if_pos (by simp [h2])]
    · unfold getJobHandler
      rw [if_neg (by simp [h1]), if_pos (by simp [h2])]
  · intro h1 h2
    have hlen : id.length = 24 := by
      have h := h1
      simp [isValidObjectId] at h
      exact h.1
    constructor
    · unfold postProcessHandler
      rw [if_neg (by simp [hlen]), if_neg (by simp [h1]), if_pos (by simp [h2])]
    · unfold getJobHandler
      rw [if_neg (by simp [hlen]), if_neg (by simp [h1]), if_pos (by simp [h2])]

/-- C6 witness: `POST /process/not-an-id` → 400 with
`{error: 'Invalid fileId format'}`; `GET /jobs/000000000000000000000000`
on an empty store → 404. -/
theorem c6_id_validation_witness :
    postProcessHandler "not-an-id" (fun _ => false) =
      mkResp 400 (some "Invalid fileId format") none ∧
    (getJobHandler "000000000000000000000000" (fun _ => false)).status = 404 :=
  ⟨((c6_id_validation "not-an-id" (fun _ => false)).1 (by decide)).1,
   ((c6_id_validation "000000000000000000000000" (fun _ => false)).2.2 (by decide) rfl).2⟩

/-- C7: the bulk-insert pattern is determined by the run's number of
valid (parsed and validated) lines — the final `linesProcessed` counter —
regardless of interleaved blank, parse-error or invalid lines: the
insert sizes are `v / B` full batches of size `B` plus, via the
end-of-input flush, one final insert of the non-zero remainder
`v % B`; in particular `v = B` gives exactly one insert and no trailing
flush, and `v = B + 1` gives exactly two inserts, the second of size 1.
The last conjunct is the general flush law: whenever the transform
leaves a non-empty batch, the flush performs exactly one more bulk
insert of that batch's size. -/
theorem c7_batching (B : Nat) (p : String → Nat → Option ParseOutcome)
    (oracle : Nat → Bool) (lines : List String) (hB : 1 ≤ B) :
    insertSizes (processStream B p oracle lines) =
      List.replicate ((runLines B p oracle lines).linesProcessed / B) B ++
        (if (runLines B p oracle lines).linesProcessed % B = 0 then []
         else [(runLines B p oracle lines).linesProcessed % B]) ∧
    ((runLines B p oracle lines).linesProcessed = B →
      insertSizes (processStream B p oracle lines) = [B]) ∧
    ((runLines B p oracle lines).linesProcessed = B + 1 →
      (insertSizes (processStream B p oracle lines)).length = 2 ∧
      (insertSizes (processStream B p oracle lines)).getLast? = some 1) ∧
    (∀ (p' : String → Nat → Option ParseOutcome) (oracle' : Nat → Bool)
        (lines' : List String),
      (runLines B p' oracle' lines').batch.length > 0 →
      insertSizes (processStream B p' oracle' lines') =
        insertSizes (runLines B p' oracle' lines') ++
          [(runLines B p' oracle' lines').batch.length]) := by
  obtain ⟨h1, h2⟩ := batchInv_foldl B p oracle hB lines initWorkerState
    ⟨by simp [initWorkerState], by simp [initWorkerState, insertSizes]⟩
  have h1' : (runLines B p oracle lines).batch.length =
      (runLines B p oracle lines).linesProcessed % B := h1
  have h2' : insertSizes (runLines B p oracle lines) =
      List.replicate ((runLines B p oracle lines).linesProcessed / B) B := h2
  have hmain : insertSizes (processStream B p oracle lines) =
      List.replicate ((runLines B p oracle lines).linesProcessed / B) B ++
        (if (runLines B p oracle lines).linesProcessed % B = 0 then []
         else [(runLines B p oracle lines).linesProcessed % B]) := by
    unfold processStream flushRemaining
    by_cases hz : (runLines B p oracle lines).linesProcessed % B = 0
    · have hb0 : (runLines B p oracle lines).batch.length = 0 := by
        rw [h1']
        exact hz
      rw [if_neg (by omega), h2']
      simp [hz]
    · have hbpos : (runLines B p oracle lines).batch.length > 0 := by
        rw [h1']
        omega
      rw [if_pos hbpos, insertSizes_doInsert, h1', h2']
      simp [hz]
  refine ⟨hmain, ?_, ?_, ?_⟩
  · intro hn
    rw [hmain, hn]
    simp [Nat.div_self (by omega : 0 < B), Nat.mod_self]
  · intro hn
    rw [hmain, hn]
    rcases Nat.lt_or_ge B 2 with hB2 | hB2
    · have hB1 : B = 1 := by omega
      subst hB1
      simp
    · have hdiv : (B + 1) / B = 1 := by
        rw [Nat.add_comm, Nat.add_div_right 1 (by omega)]
        simp [Nat.div_eq_of_lt (by omega : 1 < B)]
      have hmod : (B + 1) % B = 1 := by
        rw [Nat.add_mod_left]
        exact Nat.mod_eq_of_lt (by omega)
      rw [hdiv, hmod]
      simp
  · intro p' oracle' lines' hpos
    unfold processStream flushRemaining
    rw [if_pos hpos, insertSizes_doInsert]

/-- C7 witness: with batch size 2, a mixed input of two valid text lines
and one blank line has 2 valid lines and gives exactly one bulk insert
of size 2; three valid lines give two inserts, the second of size 1. -/
theorem c7_batching_witness :
    (runLines 2 parseTextLine (fun _ => true) ["a", "", "b"]).linesProcessed = 2 ∧
    insertSizes (processStream 2 parseTextLine (fun _ => true) ["a", "", "b"]) = [2] ∧
    (insertSizes (processStream 2 parseTextLine (fun _ => true) ["a", "b", "c"])).length = 2 ∧
    (insertSizes (processStream 2 parseTextLine (fun _ => true) ["a", "b", "c"])).getLast? =
      some 1 := by
  refine ⟨by decide, ?_, ?_, ?_⟩
  · exact (c7_batching 2 parseTextLine (fun _ => true) ["a", "", "b"] (by omega)).2.1
      (by decide)
  · exact ((c7_batching 2 parseTextLine (fun _ => true) ["a", "b", "c"] (by omega)).2.2.1
      (by decide)).1
  · exact ((c7_batching 2 parseTextLine (fun _ => true) ["a", "b", "c"] (by omega)).2.2.1
      (by decide)).2

/-- C8 (code bug): busboy emits the per-file size-limit `'limit'` event
on the file stream, not on the Busboy instance, so the route's
`bb.on('limit')` handler never fires.  On an oversized upload busboy
truncates the file stream, the truncated body is uploaded, `createFile`
runs and the file handler sends 200 — the trace busboy actually delivers
is `[fileAccepted (truncated metadata), close]`, whose response is 200
`'uploaded'` with a file record created, never the 500
`{error: 'Upload failed', message: 'File size exceeds maximum allowed
size of … bytes'}` with no record that the spec expects. -/
theorem c8_size_limit_bug :
    (runUpload [UploadEvent.fileAccepted truncatedMeta, UploadEvent.close]).response =
      some (mkResp 200 none (some "uploaded")) ∧
    (runUpload [UploadEvent.fileAccepted truncatedMeta, UploadEvent.close]).createdFiles =
      [truncatedMeta] ∧
    (runUpload [UploadEvent.fileAccepted truncatedMeta, UploadEvent.close]).response ≠
      some (mkResp 500 (some "Upload failed") (some sizeLimitMessage)) := by
  refine ⟨rfl, rfl, by decide⟩

/-- C9: `parseCsvLine` (without headers) and `parseTextLine` succeed on
every line with non-empty trim; `parseLineAuto` returns `none` exactly on
blank lines and otherwise a successful parse — none of them ever returns
`success = false`; consequently, a job run with any never-failing parser
only ever records `"Line <n>: Invalid data format"` validation errors,
never parse errors. -/
theorem c9_parsers :
    (∀ (line : String) (n : Nat), jsTrim line ≠ "" →
      ∃ v, parseCsvLine line n none = some (.ok n v)) ∧
    (∀ (line : String) (n : Nat), jsTrim line ≠ "" →
      ∃ v, parseTextLine line n = some (.ok n v)) ∧
    (∀ (jp : String → Except String JSValue) (line : String) (n : Nat),
      (parseLineAuto jp line n = none ↔ jsTrim line = "")) ∧
    (∀ (jp : String → Except String JSValue) (line : String) (n : Nat),
      jsTrim line ≠ "" → ∃ v, parseLineAuto jp line n = some (.ok n v)) ∧
    neverFails (fun line n => parseCsvLine line n none) ∧
    neverFails parseTextLine ∧
    (∀ jp, neverFails (parseLineAuto jp)) ∧
    (∀ (p : String → Nat → Option ParseOutcome), neverFails p →
      ∀ (B : Nat) (oracle : Nat → Bool) (lines : List String) (msg : String),
        msg ∈ errorMessages (processStream B p oracle lines) →
        ∃ k : Nat, msg = "Line " ++ toString k ++ ": Invalid data format") := by
  refine ⟨?_, ?_, ?_, ?_, neverFails_csv, neverFails_text, neverFails_auto, ?_⟩
  · intro line n h
    exact ⟨_, parseCsv_ok line n h⟩
  · intro line n h
    exact ⟨_, parseText_ok line n h⟩
  · intro jp line n
    exact parseAuto_none_iff jp line n
  · intro jp line n h
    exact parseAuto_ok jp line n h
  · intro p hp B oracle lines msg hmsg
    exact errorMessages_processStream B p oracle lines hp msg hmsg

/-- C9 witness: concrete successful parses, and the error tail of a run
that only contains validation-format messages. -/
theorem c9_parsers_witness :
    (∃ v, parseCsvLine "a,b" 1 none = some (.ok 1 v)) ∧
    (∃ v, parseLineAuto jsonParseLit "hello" 2 = some (.ok 2 v)) ∧
    (∀ msg ∈ errorMessages (processStream 2 parseTextLine (fun _ => true) ["x"]),
      ∃ k : Nat, msg = "Line " ++ toString k ++ ": Invalid data format") := by
  refine ⟨c9_parsers.1 "a,b" 1 (by decide),
    c9_parsers.2.2.2.1 jsonParseLit "hello" 2 (by decide), ?_⟩
  intro msg hmsg
  exact c9_parsers.2.2.2.2.2.2.2 parseTextLine neverFails_text 2 (fun _ => true) ["x"] msg hmsg

/-- C10: `validateParsedData(data)` is true exactly when `data` is a
non-empty array or a non-empty object; scalars (`null`, booleans,
numbers, strings), the empty array and the empty object are rejected;
and in the worker a successfully parsed line whose value fails
validation adds exactly one error with message
`"Line <n>: Invalid data format"`. -/
theorem c10_validate :
    (∀ d, validateParsedData d = true ↔
      ((∃ es, d = JSValue.vArr es ∧ es ≠ []) ∨ (∃ fs, d = JSValue.vObj fs ∧ fs ≠ []))) ∧
    validateParsedData JSValue.vNull = false ∧
    (∀ b, validateParsedData (JSValue.vBool b) = false) ∧
    (∀ n : Int, validateParsedData (JSValue.vNum n) = false) ∧
    (∀ s, validateParsedData (JSValue.vStr s) = false) ∧
    validateParsedData (JSValue.vArr []) = false ∧
    validateParsedData (JSValue.vObj []) = false ∧
    (∀ (B : Nat) (p : String → Nat → Option ParseOutcome) (oracle : Nat → Bool)
        (s : WorkerState) (line : String) (d : JSValue),
      p line (s.lineNumber + 1) = some (.ok (s.lineNumber + 1) d) →
      validateParsedData d = false →
      stepLine B p oracle s line =
        { s with lineNumber := s.lineNumber + 1,
                 errorCount := s.errorCount + 1,
                 effects := s.effects ++
                   [.addError ("Line " ++ toString (s.lineNumber + 1) ++
                     ": Invalid data format")] }) := by
  refine ⟨?_, rfl, fun b => rfl, fun n => rfl, fun s => rfl, rfl, rfl, ?_⟩
  · intro d
    cases d with
    | vNull => simp [validateParsedData]
    | vBool b => simp [validateParsedData]
    | vNum n => simp [validateParsedData]
    | vStr s => simp [validateParsedData]
    | vArr es => cases es <;> simp [validateParsedData]
    | vObj fs => cases fs <;> simp [validateParsedData]
  · intro B p oracle s line d hp hval
    rw [stepLine_eq_ok B p oracle line s (s.lineNumber + 1) d hp,
      if_neg (by simp [hval])]

/-- C10 witness: the scalar `5` is rejected, a non-empty array is
accepted, and processing the line `"5"` as JSON records exactly the
`"Line 1: Invalid data format"` error. -/
theorem c10_validate_witness :
    validateParsedData (JSValue.vNum 5) = false ∧
    validateParsedData (JSValue.vArr [JSValue.vNum 1]) = true ∧
    stepLine 1000 (parseJsonLine jsonParseLit) (fun _ => true) initWorkerState "5" =
      { initWorkerState with
          lineNumber := 1, errorCount := 1,
          effects := [WorkerEffect.addError "Line 1: Invalid data format"] } := by
  refine ⟨c10_validate.2.2.2.1 5, ?_, ?_⟩
  · exact (c10_validate.1 (JSValue.vArr [JSValue.vNum 1])).mpr
      (Or.inl ⟨[JSValue.vNum 1], rfl, by simp⟩)
  · exact c10_validate.2.2.2.2.2.2.2 1000 (parseJsonLine jsonParseLit) (fun _ => true)
      initWorkerState "5" (JSValue.vNum 5) rfl rfl

end FileUpload
